import Mathlib

/-!
Verification development for the data-product-definition conversion pipeline
(converter/converter.py).  The Python source is shallowly embedded below:
JSON documents become an inductive type, the DeepDiff-based structural
comparison becomes a recursive boolean test, the pydantic model constructor
and the conversion driver become pure functions, and the external
collaborators (the FastAPI schema renderer, the git status query) are
modelled as explicit parameters or documented model functions.
-/

/-- JSON values, as produced by json.loads on a published definition file and
by the dict returned from app.openapi(). -/
inductive Json where
  | null : Json
  | bool (b : Bool) : Json
  | num (n : Int) : Json
  | str (s : String) : Json
  | arr (items : List Json) : Json
  | obj (fields : List (String × Json)) : Json

/-- First value stored under a key in a JSON object field list (Python dict
lookup; field lists of real JSON objects have unique keys). -/
def lookupJ (k : String) : List (String × Json) → Option Json
  | [] => Option.none
  | (k', v) :: rest => if k' = k then some v else lookupJ k rest

/-- Whether a key occurs in a JSON object field list (Python: key in dict). -/
def hasKeyJ (k : String) : List (String × Json) → Bool
  | [] => false
  | (k', _) :: rest => k' = k || hasKeyJ k rest

/-- Whether a list of keys has no duplicates (Python dicts cannot have
duplicate keys). -/
def nodupKeys : List String → Bool
  | [] => true
  | k :: ks => !ks.contains k && nodupKeys ks

theorem lookupJ_sizeOf_lt (k : String) :
    ∀ (ys : List (String × Json)) (w : Json), lookupJ k ys = some w → sizeOf w < sizeOf ys := by
  intro ys
  induction ys with
  | nil => intro w h; simp [lookupJ] at h
  | cons p rest ih =>
    intro w h
    obtain ⟨k', v⟩ := p
    simp only [lookupJ] at h
    by_cases hk : k' = k
    · rw [if_pos hk] at h
      cases h
      simp
      omega
    · rw [if_neg hk] at h
      have := ih w h
      simp
      omega

mutual

/-- Structural document comparison as performed by
DeepDiff(current_spec, openapi, ignore_order=True) being empty: JSON objects
are compared as key-value maps (key order irrelevant, key additions and
removals and value changes are differences), and lists are compared
order-insensitively (with report_repetition left at its default, repetition
counts are ignored, so each side's items must each have an equivalent item
on the other side). -/
def Json.equiv : Json → Json → Bool
  | Json.null, Json.null => true
  | Json.bool a, Json.bool b => a == b
  | Json.num a, Json.num b => a == b
  | Json.str a, Json.str b => a == b
  | Json.arr xs, Json.arr ys => listSubsetEquiv xs ys && listSubsetEquiv ys xs
  | Json.obj xs, Json.obj ys =>
    fieldsEquiv xs ys && ys.all (fun p => hasKeyJ p.1 xs)
  | _, _ => false
termination_by a b => sizeOf a + sizeOf b
decreasing_by all_goals simp_wf <;> omega

/-- Every item of the first list has an equivalent item in the second list. -/
def listSubsetEquiv : List Json → List Json → Bool
  | [], _ => true
  | x :: xs, ys => memEquiv x ys && listSubsetEquiv xs ys
termination_by xs ys => sizeOf xs + sizeOf ys
decreasing_by all_goals simp_wf <;> omega

/-- Some item of the list is equivalent to the given value. -/
def memEquiv : Json → List Json → Bool
  | _, [] => false
  | x, y :: ys => Json.equiv x y || memEquiv x ys
termination_by x ys => sizeOf x + sizeOf ys
decreasing_by all_goals simp_wf <;> omega

/-- Every field of the first object has a matching key in the second object
whose value is equivalent. -/
def fieldsEquiv : List (String × Json) → List (String × Json) → Bool
  | [], _ => true
  | (k, v) :: rest, ys =>
    (match h : lookupJ k ys with
     | some w => Json.equiv v w
     | Option.none => false)
    && fieldsEquiv rest ys
termination_by xs ys => sizeOf xs + sizeOf ys
decreasing_by
  all_goals simp_wf
  all_goals have := lookupJ_sizeOf_lt k ys w h
  all_goals omega

end

mutual

/-- Well-formedness of a JSON value: every object has duplicate-free keys.
Documents obtained from json.loads or from app.openapi() always satisfy
this, since Python dicts cannot hold a key twice. -/
def Json.wf : Json → Bool
  | Json.null => true
  | Json.bool _ => true
  | Json.num _ => true
  | Json.str _ => true
  | Json.arr xs => wfList xs
  | Json.obj xs => nodupKeys (xs.map Prod.fst) && wfFields xs
termination_by a => sizeOf a
decreasing_by all_goals simp_wf <;> omega

/-- All items of a list are well-formed. -/
def wfList : List Json → Bool
  | [] => true
  | x :: xs => x.wf && wfList xs
termination_by xs => sizeOf xs
decreasing_by all_goals simp_wf <;> omega

/-- All field values of an object are well-formed. -/
def wfFields : List (String × Json) → Bool
  | [] => true
  | (_, v) :: xs => v.wf && wfFields xs
termination_by xs => sizeOf xs
decreasing_by all_goals simp_wf <;> omega

end

/-- Truthiness of a Python str value. -/
def pyTruthy (s : String) : Bool := !(s == "")

/-- Falsiness of a Python Optional[str] value: None or the empty string. -/
def pyFalsyOpt : Option String → Bool
  | Option.none => true
  | some s => s == ""

/-- Opaque reference to an externally defined request or response model; the
core never inspects it beyond passing it to the synthesizer. -/
structure SchemaRef where
  modelName : String
deriving DecidableEq

/-- The DataProductDefinition pydantic model (lines 19-28 of the source). -/
structure DataProductDefinition where
  description : Option String
  name : Option String
  request : SchemaRef
  response : SchemaRef
  route_description : Option String
  route_summary : Option String
  summary : String
  requires_authorization : Bool
  requires_consent : Bool
deriving DecidableEq

/-- DataProductDefinition.__init__ (lines 30-37): after field assignment,
when summary is truthy, a falsy route_description and then a falsy
description are overwritten with summary. -/
def DataProductDefinition.init (description : Option String) (name : Option String)
    (request response : SchemaRef) (route_description route_summary : Option String)
    (summary : String) (requires_authorization requires_consent : Bool) :
    DataProductDefinition :=
  let d : DataProductDefinition :=
    { description := description, name := name, request := request, response := response,
      route_description := route_description, route_summary := route_summary,
      summary := summary, requires_authorization := requires_authorization,
      requires_consent := requires_consent }
  if pyTruthy d.summary then
    let d1 :=
      if pyFalsyOpt d.route_description then { d with route_description := some d.summary }
      else d
    if pyFalsyOpt d1.description then { d1 with description := some d1.summary } else d1
  else d

/-- Python type annotation used for a header parameter: str or Optional[str]. -/
inductive PyType where
  | str : PyType
  | optionalStr : PyType
deriving DecidableEq

/-- Default value handed to Header(...): the ellipsis literal (rendered by the
framework as a required parameter) or None (rendered as an optional parameter
with no default value in the document). -/
inductive HeaderDefault where
  | ellipsis : HeaderDefault
  | pyNone : HeaderDefault
deriving DecidableEq

/-- One header parameter declaration of the synthesized operation. -/
structure HeaderParam where
  pyType : PyType
  defaultValue : HeaderDefault
  description : String
deriving DecidableEq

/-- A header parameter is rendered as required exactly when its default value
is the ellipsis (framework semantics, per the spec's header table). -/
def HeaderParam.required (h : HeaderParam) : Bool :=
  match h.defaultValue with
  | HeaderDefault.ellipsis => true
  | HeaderDefault.pyNone => false

/-- The single operation of a synthesized document. -/
structure Operation where
  summary : Option String
  description : Option String
  operationId : String
  parameters : List (String × HeaderParam)
  requestBody : SchemaRef
  responseModel : SchemaRef
deriving DecidableEq

/-- A synthesized API description document. -/
structure OpenApiDoc where
  title : String
  description : Option String
  version : String
  paths : List (String × Operation)
deriving DecidableEq

/-- Python str() of an Optional[str]: None prints as the word None, which is
how the f-string route path renders a missing name. -/
def pyStr : Option String → String
  | Option.none => "None"
  | some s => s

/-- The route path registered for a definition (line 70). -/
def routePath (name : Option String) : String := "/" ++ pyStr name

/-- Modelled from the spec: the external schema-synthesis engine derives each
operation's raw operationId from the handler name and route path, sanitized
to identifier characters, and appends the transport-method suffix; raw ids
always carry the suffix and are not stable identifiers. -/
def rawOperationId (path : String) : String :=
  String.mk (("request".data ++ path.data).map (fun c => if c.isAlphanum then c else '_'))
    ++ "_post"

/-- Python str.removesuffix on character lists: drop one trailing copy of the
given suffix when the string ends with it, otherwise return it unchanged. -/
def removesuffix (suf cs : List Char) : List Char :=
  if suf.isSuffixOf cs then cs.take (cs.length - suf.length) else cs

/-- The operationId normalization of export_openapi_spec (line 94):
operation_id.removesuffix applied to the method suffix. -/
def stripMethodSuffix (s : String) : String :=
  String.mk (removesuffix "_post".data s.data)

/-- Modelled from the spec plus lines 47-91 of the source: the operation that
the excluded schema-synthesis collaborator (the FastAPI application plus its
openapi() export) renders for the single POST route registered by
export_openapi_spec.  Operation summary and description, the three header
parameter declarations with their types, default values and descriptions,
and the request and response schema references are exactly the values the
source passes to the framework; the raw operationId still carries the
method suffix. -/
def fastapiOperation (definition : DataProductDefinition) : Operation :=
  let authorization_header_type :=
    if definition.requires_authorization then PyType.str else PyType.optionalStr
  let authorization_header_default_value :=
    if definition.requires_authorization then HeaderDefault.ellipsis else HeaderDefault.pyNone
  let consent_header_type :=
    if definition.requires_consent then PyType.str else PyType.optionalStr
  let consent_header_default_value :=
    if definition.requires_consent then HeaderDefault.ellipsis else HeaderDefault.pyNone
  let consent_header_description :=
    if definition.requires_consent then "Consent token" else "Optional consent token"
  { summary := definition.route_summary
    description := definition.route_description
    operationId := rawOperationId (routePath definition.name)
    parameters :=
      [("x-consent-token",
        { pyType := consent_header_type
          defaultValue := consent_header_default_value
          description := consent_header_description }),
       ("authorization",
        { pyType := authorization_header_type
          defaultValue := authorization_header_default_value
          description := "The login token. Value should be \"Bearer [token]\"" }),
       ("x-authorization-provider",
        { pyType := PyType.optionalStr
          defaultValue := HeaderDefault.pyNone
          description := "The bare domain of the system that provided the token." })]
    requestBody := definition.request
    responseModel := definition.response }

/-- Modelled from the spec plus lines 47-91 of the source, continued: the
whole rendered document with its top-level metadata and the single route. -/
def fastapi_openapi (definition : DataProductDefinition) : OpenApiDoc :=
  { title := definition.summary
    description := definition.description
    version := "1.0.0"
    paths := [(routePath definition.name, fastapiOperation definition)] }

/-- The operation as it appears in the exported document: the rendered
operation with its operationId normalized (line 94). -/
def exportedOperation (definition : DataProductDefinition) : Operation :=
  { fastapiOperation definition with
    operationId := stripMethodSuffix (fastapiOperation definition).operationId }

/-- The mandatory post-processing loop of export_openapi_spec (lines 93-95):
strip the method suffix from every path entry's operationId. -/
def stripOperationIds (doc : OpenApiDoc) : OpenApiDoc :=
  { doc with paths := doc.paths.map (fun p =>
      (p.1, { p.2 with operationId := stripMethodSuffix p.2.operationId })) }

/-- export_openapi_spec (lines 40-97): render the document for the
definition's route and normalize every operationId. -/
def export_openapi_spec (definition : DataProductDefinition) : OpenApiDoc :=
  stripOperationIds (fastapi_openapi definition)

/-- JSON value for an Optional[str] field of the rendered document. -/
def encodeOptStr : Option String → Json
  | Option.none => Json.null
  | some s => Json.str s

/-- Modelled from the spec: JSON rendering of one header parameter in the
published structured-document form. -/
def encodeHeaderParam (nm : String) (h : HeaderParam) : Json :=
  Json.obj
    [("name", Json.str nm),
     ("in", Json.str "header"),
     ("required", Json.bool h.required),
     ("description", Json.str h.description),
     ("schema", Json.obj [("type", Json.str "string")])]

/-- Modelled from the spec: JSON rendering of the single operation in the
published structured-document form. -/
def encodeOperation (op : Operation) : Json :=
  Json.obj
    [("summary", encodeOptStr op.summary),
     ("description", encodeOptStr op.description),
     ("operationId", Json.str op.operationId),
     ("parameters", Json.arr (op.parameters.map (fun p => encodeHeaderParam p.1 p.2))),
     ("requestBody", Json.obj [("schemaRef", Json.str op.requestBody.modelName)]),
     ("responses", Json.obj [("200", Json.obj [("schemaRef", Json.str op.responseModel.modelName)])])]

/-- Modelled from the spec: JSON rendering of a whole synthesized document
in the published structured-document form, the shape parsed back by
json.loads when the publisher reads the previously published file. -/
def encodeDoc (doc : OpenApiDoc) : Json :=
  Json.obj
    [("openapi", Json.str "3.0.2"),
     ("info", Json.obj
        [("title", Json.str doc.title),
         ("description", encodeOptStr doc.description),
         ("version", Json.str doc.version)]),
     ("paths", Json.obj (doc.paths.map (fun p =>
        (p.1, Json.obj [("post", encodeOperation p.2)]))))]

/-- Split a list of characters at every occurrence of the separator; leading,
trailing and doubled separators produce empty pieces. -/
def splitOnChar (c : Char) : List Char → List (List Char)
  | [] => [[]]
  | x :: xs =>
    match splitOnChar c xs with
    | [] => [[]]
    | piece :: pieces =>
      if x = c then [] :: piece :: pieces else (x :: piece) :: pieces

/-- pathlib with_suffix applied with the empty suffix to one path component:
remove the last dot-extension when there is one (a dot in first position or
a trailing dot does not open a suffix, matching pathlib). -/
def withSuffixEmpty (s : String) : String :=
  match splitOnChar '.' s.data with
  | [] => s
  | [_] => s
  | piece :: pieces =>
    if pieces.getLastD [] = [] then s
    else if piece = [] ∧ pieces.length = 1 then s
    else String.mk (List.intercalate ['.'] ((piece :: pieces).dropLast))

/-- pathlib with_suffix applied with the json extension to one path
component: replace the component's extension. -/
def withSuffixJson (s : String) : String := withSuffixEmpty s ++ ".json"

/-- Apply a function to the last component of a path given as components. -/
def mapLast (f : String → String) : List String → List String
  | [] => []
  | [x] => [f x]
  | x :: y :: xs => x :: mapLast f (y :: xs)

/-- as_posix on a relative path given as components: join the components
with forward slashes. -/
def asPosix (comps : List String) : String :=
  String.intercalate "/" comps

/-- Definition name derived from the artifact path (line 117):
p.relative_to(src).with_suffix applied with the empty suffix, as_posix. -/
def derivedName (relPath : List String) : String :=
  asPosix (mapLast withSuffixEmpty relPath)

/-- Destination file of an artifact (line 123): the destination root joined
with the source-relative path, its extension replaced by json. -/
def outPath (dest : String) (relPath : List String) : String :=
  dest ++ "/" ++ asPosix (mapLast withSuffixJson relPath)

/-- Lines 116-119 of the loader: assign the definition's name from the
artifact path, then default a falsy route_summary to the name. -/
def assignNameAndRouteSummary (relPath : List String) (d : DataProductDefinition) :
    DataProductDefinition :=
  let nm := derivedName relPath
  let d1 : DataProductDefinition := { d with name := some nm }
  if pyFalsyOpt d1.route_summary then { d1 with route_summary := some nm } else d1

/-- One definition source artifact discovered under the source root: its path
components relative to the root and the DEFINITION entity its module exposes
(Option.none models both a missing and a null DEFINITION). -/
structure Artifact where
  relPath : List String
  defn : Option DataProductDefinition
deriving DecidableEq

/-- Fatal per-artifact failure: the artifact does not expose a non-null
DEFINITION entity (lines 112-114). -/
inductive ConvertError where
  | missingDefinition (relPath : List String) : ConvertError
deriving DecidableEq

/-- External version-control collaborator: the stdout produced by the git
short-status query for each file path. -/
structure GitEnv where
  gitStatusShort : String → String

/-- Python str.startswith, computed on the character lists. -/
def pyStartsWith (s pre : String) : Bool := pre.data.isPrefixOf s.data

/-- file_is_untracked (lines 165-175): a file is untracked iff its short
status output starts with the double-question-mark marker. -/
def file_is_untracked (env : GitEnv) (file : String) : Bool :=
  pyStartsWith (env.gitStatusShort file) "??"

/-- The JSON document that would be synthesized and published for an artifact
whose DEFINITION entity is d0 (lines 116-121 plus the rendering). -/
def candidateDoc (relPath : List String) (d0 : DataProductDefinition) : Json :=
  encodeDoc (export_openapi_spec (assignNameAndRouteSummary relPath d0))

/-- The previously published document for an artifact, taken as the empty
object when the destination file is absent (lines 125-127). -/
def currentDoc (dest : String) (fs : List (String × Json)) (a : Artifact) : Json :=
  (lookupJ (outPath dest a.relPath) fs).getD (Json.obj [])

/-- Overwrite or create one file in the published state (out_file.write_text). -/
def writeFile (file : String) (doc : Json) : List (String × Json) → List (String × Json)
  | [] => [(file, doc)]
  | (f, d) :: fs => if f = file then (file, doc) :: fs else (f, d) :: writeFile file doc fs

/-- The body of the conversion loop (lines 108-145) for one artifact: load the
DEFINITION entity (fatal error when missing or null), derive name and route
summary, synthesize the document, write it only when the structural diff
against the currently published document reports a difference, and otherwise
consult the version-control status for untracked surfacing.  Returns the
updated published state and this definition's change flag.  The validation
hook invoked after a write is fire-and-forget and does not affect the
outcome, so it has no counterpart here. -/
def processArtifact (env : GitEnv) (dest : String) (fs : List (String × Json))
    (a : Artifact) : Except ConvertError (List (String × Json) × Bool) :=
  match a.defn with
  | Option.none => Except.error (ConvertError.missingDefinition a.relPath)
  | some d0 =>
    let openapi := candidateDoc a.relPath d0
    let out_file := outPath dest a.relPath
    let current_spec := currentDoc dest fs a
    if Json.equiv current_spec openapi then
      if file_is_untracked env out_file then Except.ok (fs, true)
      else Except.ok (fs, false)
    else
      Except.ok (writeFile out_file openapi fs, true)

/-- convert_data_product_definitions (lines 100-147): process each artifact in
discovery order, fold the per-definition change flags with logical OR into
the returned boolean, and stop at the first fatal error, keeping the
published files written for earlier artifacts in place. -/
def convert_data_product_definitions (env : GitEnv) (dest : String) :
    List (String × Json) → List Artifact →
    List (String × Json) × Except ConvertError Bool
  | fs, [] => (fs, Except.ok false)
  | fs, a :: rest =>
    match processArtifact env dest fs a with
    | Except.error e => (fs, Except.error e)
    | Except.ok (fs1, changed) =>
      let r := convert_data_product_definitions env dest fs1 rest
      (r.1, r.2.map (fun b => changed || b))

/-- Trace variant of the driver, recording every definition's change flag in
order; used to state that the driver's boolean outcome is the OR-fold of the
per-definition flags. -/
def convertTrace (env : GitEnv) (dest : String) :
    List (String × Json) → List Artifact →
    List (String × Json) × Except ConvertError (List Bool)
  | fs, [] => (fs, Except.ok [])
  | fs, a :: rest =>
    match processArtifact env dest fs a with
    | Except.error e => (fs, Except.error e)
    | Except.ok (fs1, changed) =>
      let r := convertTrace env dest fs1 rest
      (r.1, r.2.map (fun flags => changed :: flags))

/-- Sample request schema reference used in concrete checks. -/
def sampleRequest : SchemaRef := { modelName := "CreateOrderRequest" }

/-- Sample response schema reference used in concrete checks. -/
def sampleResponse : SchemaRef := { modelName := "CreateOrderResponse" }

/-- Sample definition entity (constructed through the model constructor)
used in concrete checks. -/
def sampleDefinition : DataProductDefinition :=
  DataProductDefinition.init Option.none Option.none sampleRequest sampleResponse
    Option.none Option.none "Create order" false false

/-- Sample definition entity requiring consent but not authorization. -/
def consentDefinition : DataProductDefinition :=
  DataProductDefinition.init Option.none Option.none sampleRequest sampleResponse
    Option.none Option.none "Create order" false true

/-- Sample artifact exposing the sample definition. -/
def sampleArtifact : Artifact :=
  { relPath := ["orders", "create.py"], defn := some sampleDefinition }

/-- Sample artifact exposing no DEFINITION entity. -/
def badArtifact : Artifact := { relPath := ["broken.py"], defn := Option.none }

/-- Version-control environment in which every file is tracked (empty short
status output). -/
def trackedEnv : GitEnv := { gitStatusShort := fun _ => "" }

/-- Version-control environment in which every file is untracked. -/
def untrackedEnv : GitEnv := { gitStatusShort := fun f => "?? " ++ f }

theorem nodupKeys_iff : ∀ ks : List String, nodupKeys ks = true ↔ ks.Nodup := by
  intro ks
  induction ks with
  | nil => simp [nodupKeys]
  | cons k ks ih =>
    simp [nodupKeys, ih, List.elem_iff]

theorem lookupJ_mem {k : String} : ∀ {xs : List (String × Json)} {v : Json},
    lookupJ k xs = some v → (k, v) ∈ xs := by
  intro xs
  induction xs with
  | nil => intro v h; simp [lookupJ] at h
  | cons p rest ih =>
    intro v h
    obtain ⟨k', w⟩ := p
    simp only [lookupJ] at h
    by_cases hk : k' = k
    · rw [if_pos hk] at h
      cases h
      subst hk
      exact List.mem_cons_self _ _
    · rw [if_neg hk] at h
      exact List.mem_cons_of_mem _ (ih h)

theorem hasKeyJ_iff {k : String} : ∀ {xs : List (String × Json)},
    hasKeyJ k xs = true ↔ ∃ v, (k, v) ∈ xs := by
  intro xs
  induction xs with
  | nil => simp [hasKeyJ]
  | cons p rest ih =>
    obtain ⟨k', w⟩ := p
    simp only [hasKeyJ, Bool.or_eq_true, decide_eq_true_eq, ih]
    constructor
    · rintro (rfl | ⟨v, hv⟩)
      · exact ⟨w, List.mem_cons_self _ _⟩
      · exact ⟨v, List.mem_cons_of_mem _ hv⟩
    · rintro ⟨v, hv⟩
      rcases List.mem_cons.mp hv with h | h
      · left; cases h; rfl
      · right; exact ⟨v, h⟩

theorem lookupJ_eq_none {k : String} : ∀ {xs : List (String × Json)},
    hasKeyJ k xs = false → lookupJ k xs = Option.none := by
  intro xs
  induction xs with
  | nil => intro _; rfl
  | cons p rest ih =>
    obtain ⟨k', w⟩ := p
    intro h
    simp only [hasKeyJ, Bool.or_eq_false_iff, decide_eq_false_iff_not] at h
    simp only [lookupJ, if_neg h.1]
    exact ih h.2

theorem lookupJ_of_nodup {k : String} {v : Json} :
    ∀ {xs : List (String × Json)}, nodupKeys (xs.map Prod.fst) = true →
    (k, v) ∈ xs → lookupJ k xs = some v := by
  intro xs
  induction xs with
  | nil => intro _ h; simp at h
  | cons p rest ih =>
    obtain ⟨k', w⟩ := p
    intro hnd hm
    simp only [List.map_cons, nodupKeys, Bool.and_eq_true, Bool.not_eq_true',
      List.contains_eq_any_beq] at hnd
    rcases List.mem_cons.mp hm with h | h
    · cases h
      simp [lookupJ]
    · have hk : k' ≠ k := by
        intro he
        subst he
        have : (rest.map Prod.fst).any (k' == ·) = true := by
          rw [List.any_eq_true]
          exact ⟨k', List.mem_map_of_mem Prod.fst h, by simp⟩
        rw [this] at hnd
        simp at hnd
      simp only [lookupJ, if_neg hk]
      exact ih hnd.2 h

theorem memEquiv_iff {x : Json} : ∀ {ys : List Json},
    memEquiv x ys = true ↔ ∃ y ∈ ys, Json.equiv x y = true := by
  intro ys
  induction ys with
  | nil => simp [memEquiv]
  | cons y ys ih => simp [memEquiv, ih, Bool.or_eq_true]

theorem listSubsetEquiv_iff : ∀ {xs ys : List Json},
    listSubsetEquiv xs ys = true ↔ ∀ x ∈ xs, memEquiv x ys = true := by
  intro xs ys
  induction xs with
  | nil => simp [listSubsetEquiv]
  | cons x xs ih => simp [listSubsetEquiv, ih, Bool.and_eq_true]

theorem fieldsEquiv_iff : ∀ {xs ys : List (String × Json)},
    fieldsEquiv xs ys = true ↔
      ∀ p ∈ xs, ∃ w, lookupJ p.1 ys = some w ∧ Json.equiv p.2 w = true := by
  intro xs ys
  induction xs with
  | nil => simp [fieldsEquiv]
  | cons p rest ih =>
    obtain ⟨k, v⟩ := p
    rw [fieldsEquiv]
    cases hl : lookupJ k ys with
    | none =>
      simp only [Bool.false_and, hl]
      constructor
      · intro h; cases h
      · intro h
        obtain ⟨w, hw, _⟩ := h (k, v) (List.mem_cons_self _ _)
        rw [hl] at hw
        cases hw
    | some w =>
      simp only [hl, Bool.and_eq_true, ih]
      constructor
      · rintro ⟨h1, h2⟩ q hq
        rcases List.mem_cons.mp hq with h | h
        · subst h; exact ⟨w, hl, h1⟩
        · exact h2 q h
      · intro h
        refine ⟨?_, fun q hq => h q (List.mem_cons_of_mem _ hq)⟩
        obtain ⟨w', hw', he'⟩ := h (k, v) (List.mem_cons_self _ _)
        rw [hl] at hw'
        cases hw'
        exact he'

theorem wfList_mem : ∀ {xs : List Json}, wfList xs = true → ∀ {x : Json}, x ∈ xs → x.wf = true := by
  intro xs
  induction xs with
  | nil => intro _ x h; simp at h
  | cons y ys ih =>
    intro h x hx
    rw [wfList, Bool.and_eq_true] at h
    rcases List.mem_cons.mp hx with h' | h'
    · subst h'; exact h.1
    · exact ih h.2 h'

theorem wfFields_mem : ∀ {xs : List (String × Json)}, wfFields xs = true →
    ∀ {p : String × Json}, p ∈ xs → p.2.wf = true := by
  intro xs
  induction xs with
  | nil => intro _ p h; simp at h
  | cons q qs ih =>
    intro h p hp
    obtain ⟨k, v⟩ := q
    rw [wfFields, Bool.and_eq_true] at h
    rcases List.mem_cons.mp hp with h' | h'
    · subst h'; exact h.1
    · exact ih h.2 h'

theorem Json.equiv_refl : ∀ a : Json, a.wf = true → Json.equiv a a = true := by
  suffices H : ∀ (n : Nat) (a : Json), sizeOf a ≤ n → a.wf = true → Json.equiv a a = true by
    intro a
    exact H (sizeOf a) a (Nat.le_refl _)
  intro n
  induction n with
  | zero =>
    intro a h _
    exfalso
    cases a <;> simp at h
  | succ n ih =>
    intro a hs hw
    cases a with
    | null => rw [Json.equiv]
    | bool b => simp [Json.equiv]
    | num i => simp [Json.equiv]
    | str s => simp [Json.equiv]
    | arr xs =>
      have hwl : wfList xs = true := by rw [Json.wf] at hw; exact hw
      have hsub : listSubsetEquiv xs xs = true := by
        rw [listSubsetEquiv_iff]
        intro x hx
        rw [memEquiv_iff]
        refine ⟨x, hx, ih x ?_ (wfList_mem hwl hx)⟩
        have h1 := List.sizeOf_lt_of_mem hx
        simp only [Json.arr.sizeOf_spec] at hs
        omega
      rw [Json.equiv, hsub]
      rfl
    | obj xs =>
      rw [Json.wf, Bool.and_eq_true] at hw
      have hfe : fieldsEquiv xs xs = true := by
        rw [fieldsEquiv_iff]
        intro p hp
        refine ⟨p.2, lookupJ_of_nodup hw.1 ?_, ?_⟩
        · exact (Prod.mk.eta (p := p)) ▸ hp
        · refine ih p.2 ?_ (wfFields_mem hw.2 hp)
          have h1 := List.sizeOf_lt_of_mem hp
          obtain ⟨k, v⟩ := p
          simp only [Json.obj.sizeOf_spec] at hs
          simp only [Prod.mk.sizeOf_spec] at h1
          show sizeOf v ≤ n
          omega
      have hall : xs.all (fun p => hasKeyJ p.1 xs) = true := by
        rw [List.all_eq_true]
        intro p hp
        rw [hasKeyJ_iff]
        exact ⟨p.2, (Prod.mk.eta (p := p)) ▸ hp⟩
      rw [Json.equiv, hfe, hall]
      rfl

theorem wfList_iff : ∀ {xs : List Json}, wfList xs = true ↔ ∀ x ∈ xs, x.wf = true := by
  intro xs
  induction xs with
  | nil => simp [wfList]
  | cons y ys ih => simp [wfList, Bool.and_eq_true, ih]

theorem wfFields_iff : ∀ {xs : List (String × Json)},
    wfFields xs = true ↔ ∀ p ∈ xs, p.2.wf = true := by
  intro xs
  induction xs with
  | nil => simp [wfFields]
  | cons q qs ih =>
    obtain ⟨k, v⟩ := q
    simp [wfFields, Bool.and_eq_true, ih]

theorem encodeOptStr_wf (o : Option String) : (encodeOptStr o).wf = true := by
  cases o <;> simp [encodeOptStr, Json.wf]

theorem encodeHeaderParam_wf (nm : String) (h : HeaderParam) :
    (encodeHeaderParam nm h).wf = true := by
  simp only [encodeHeaderParam, Json.wf, List.map_cons, List.map_nil, Bool.and_eq_true]
  refine ⟨by decide, ?_⟩
  rw [wfFields_iff]
  intro p hp
  simp only [List.mem_cons, List.not_mem_nil, or_false] at hp
  rcases hp with rfl | rfl | rfl | rfl | rfl <;> simp [Json.wf, wfFields, nodupKeys]

theorem encodeOperation_wf (op : Operation) : (encodeOperation op).wf = true := by
  simp only [encodeOperation, Json.wf, List.map_cons, List.map_nil, Bool.and_eq_true]
  refine ⟨by decide, ?_⟩
  rw [wfFields_iff]
  intro p hp
  simp only [List.mem_cons, List.not_mem_nil, or_false] at hp
  rcases hp with rfl | rfl | rfl | rfl | rfl | rfl
  · exact encodeOptStr_wf _
  · exact encodeOptStr_wf _
  · rw [Json.wf]
  · show (Json.arr _).wf = true
    rw [Json.wf, wfList_iff]
    intro x hx
    obtain ⟨q, _, rfl⟩ := List.mem_map.mp hx
    exact encodeHeaderParam_wf q.1 q.2
  · simp [Json.wf, wfFields, nodupKeys]
  · simp [Json.wf, wfFields, nodupKeys]

theorem encodeDoc_wf (doc : OpenApiDoc)
    (h : nodupKeys (doc.paths.map Prod.fst) = true) : (encodeDoc doc).wf = true := by
  simp only [encodeDoc, Json.wf, List.map_cons, List.map_nil, Bool.and_eq_true]
  refine ⟨by decide, ?_⟩
  rw [wfFields_iff]
  intro p hp
  simp only [List.mem_cons, List.not_mem_nil, or_false] at hp
  rcases hp with rfl | rfl | rfl
  · rw [Json.wf]
  · show (Json.obj _).wf = true
    simp only [Json.wf, List.map_cons, List.map_nil, Bool.and_eq_true]
    refine ⟨by decide, ?_⟩
    rw [wfFields_iff]
    intro q hq
    simp only [List.mem_cons, List.not_mem_nil, or_false] at hq
    rcases hq with rfl | rfl | rfl
    · rw [Json.wf]
    · exact encodeOptStr_wf _
    · rw [Json.wf]
  · show (Json.obj _).wf = true
    simp only [Json.wf, Bool.and_eq_true]
    constructor
    · have hmap : (doc.paths.map (fun p => (p.1, Json.obj [("post", encodeOperation p.2)]))).map Prod.fst
          = doc.paths.map Prod.fst := by
        simp [List.map_map, Function.comp]
      rw [hmap]
      exact h
    · rw [wfFields_iff]
      intro q hq
      obtain ⟨r, _, rfl⟩ := List.mem_map.mp hq
      show (Json.obj _).wf = true
      simp only [Json.wf, List.map_cons, List.map_nil, Bool.and_eq_true]
      refine ⟨by decide, ?_⟩
      rw [wfFields_iff]
      intro t ht
      simp only [List.mem_cons, List.not_mem_nil, or_false] at ht
      cases ht
      exact encodeOperation_wf _

theorem export_paths (d : DataProductDefinition) :
    ∃ op : Operation, (export_openapi_spec d).paths = [(routePath d.name, op)] :=
  ⟨_, rfl⟩

theorem candidateDoc_wf (relPath : List String) (d0 : DataProductDefinition) :
    (candidateDoc relPath d0).wf = true := by
  rw [candidateDoc]
  apply encodeDoc_wf
  obtain ⟨op, hop⟩ := export_paths (assignNameAndRouteSummary relPath d0)
  rw [hop]
  simp [nodupKeys]

theorem lookupJ_writeFile_self (file : String) (doc : Json) :
    ∀ fs : List (String × Json), lookupJ file (writeFile file doc fs) = some doc := by
  intro fs
  induction fs with
  | nil => simp [writeFile, lookupJ]
  | cons p rest ih =>
    obtain ⟨f, d⟩ := p
    rw [writeFile]
    by_cases hf : f = file
    · rw [if_pos hf]
      simp [lookupJ]
    · rw [if_neg hf]
      rw [lookupJ, if_neg hf]
      exact ih

theorem processArtifact_of_missing (env : GitEnv) (dest : String)
    (fs : List (String × Json)) (a : Artifact) (h : a.defn = Option.none) :
    processArtifact env dest fs a
      = Except.error (ConvertError.missingDefinition a.relPath) := by
  simp [processArtifact, h]

theorem processArtifact_of_equiv (env : GitEnv) (dest : String)
    (fs : List (String × Json)) (a : Artifact) (d0 : DataProductDefinition)
    (h : a.defn = some d0)
    (he : Json.equiv (currentDoc dest fs a) (candidateDoc a.relPath d0) = true) :
    processArtifact env dest fs a
      = Except.ok (fs, file_is_untracked env (outPath dest a.relPath)) := by
  simp only [processArtifact, h, he, if_true]
  cases hu : file_is_untracked env (outPath dest a.relPath) <;> simp [hu]

theorem processArtifact_of_not_equiv (env : GitEnv) (dest : String)
    (fs : List (String × Json)) (a : Artifact) (d0 : DataProductDefinition)
    (h : a.defn = some d0)
    (he : Json.equiv (currentDoc dest fs a) (candidateDoc a.relPath d0) = false) :
    processArtifact env dest fs a
      = Except.ok (writeFile (outPath dest a.relPath) (candidateDoc a.relPath d0) fs, true) := by
  simp [processArtifact, h, he]

theorem processArtifact_isOk (env : GitEnv) (dest : String)
    (fs : List (String × Json)) (a : Artifact) (d0 : DataProductDefinition)
    (h : a.defn = some d0) :
    ∃ fs1 c, processArtifact env dest fs a = Except.ok (fs1, c) := by
  cases he : Json.equiv (currentDoc dest fs a) (candidateDoc a.relPath d0) with
  | true => exact ⟨fs, _, processArtifact_of_equiv env dest fs a d0 h he⟩
  | false => exact ⟨_, true, processArtifact_of_not_equiv env dest fs a d0 h he⟩

theorem writeFile_changes (dest : String) (fs : List (String × Json)) (a : Artifact)
    (d0 : DataProductDefinition)
    (he : Json.equiv (currentDoc dest fs a) (candidateDoc a.relPath d0) = false) :
    writeFile (outPath dest a.relPath) (candidateDoc a.relPath d0) fs ≠ fs := by
  intro hEq
  have h1 : lookupJ (outPath dest a.relPath) fs = some (candidateDoc a.relPath d0) := by
    conv_lhs => rw [← hEq]
    exact lookupJ_writeFile_self _ _ fs
  have h2 : currentDoc dest fs a = candidateDoc a.relPath d0 := by
    rw [currentDoc, h1]
    rfl
  rw [h2] at he
  have h3 := Json.equiv_refl _ (candidateDoc_wf a.relPath d0)
  rw [h3] at he
  cases he

theorem removesuffix_idem (suf cs : List Char) (h : ¬ (suf ++ suf) <:+ cs) :
    removesuffix suf (removesuffix suf cs) = removesuffix suf cs := by
  by_cases h1 : suf <:+ cs
  · obtain ⟨t, ht⟩ := h1
    have hb : suf.isSuffixOf cs = true := List.isSuffixOf_iff_suffix.mpr ⟨t, ht⟩
    have hlen : cs.length - suf.length = t.length := by
      rw [← ht, List.length_append]
      omega
    have hstep : removesuffix suf cs = t := by
      rw [removesuffix, if_pos hb, hlen, ← ht, List.take_left]
    rw [hstep]
    have h2 : ¬ suf <:+ t := by
      rintro ⟨u, hu⟩
      exact h ⟨u, by rw [← ht, ← hu, List.append_assoc]⟩
    have hb2 : suf.isSuffixOf t = false := by
      rw [← Bool.not_eq_true, List.isSuffixOf_iff_suffix]
      exact h2
    simp [removesuffix, hb2]
  · have hb : suf.isSuffixOf cs = false := by
      rw [← Bool.not_eq_true, List.isSuffixOf_iff_suffix]
      exact h1
    simp [removesuffix, hb]

/-- C1: for every definition name and candidate document, the publisher
writes the destination file only when the structural diff between the
previously published document (the empty object when the file is absent)
and the candidate reports a difference — when no difference is reported the
published state is left unchanged — and in particular a destination already
holding exactly the document that would be synthesized, for a
version-control-tracked file, yields no write and changed = false. -/
theorem C1_write_only_on_diff (env : GitEnv) (dest : String)
    (fs : List (String × Json)) (a : Artifact) (d0 : DataProductDefinition)
    (h : a.defn = some d0) :
    (Json.equiv (currentDoc dest fs a) (candidateDoc a.relPath d0) = true →
      processArtifact env dest fs a
        = Except.ok (fs, file_is_untracked env (outPath dest a.relPath)))
    ∧ (Json.equiv (currentDoc dest fs a) (candidateDoc a.relPath d0) = false →
      processArtifact env dest fs a
        = Except.ok
            (writeFile (outPath dest a.relPath) (candidateDoc a.relPath d0) fs, true))
    ∧ (lookupJ (outPath dest a.relPath) fs = some (candidateDoc a.relPath d0) →
      file_is_untracked env (outPath dest a.relPath) = false →
      processArtifact env dest fs a = Except.ok (fs, false)) := by
  refine ⟨processArtifact_of_equiv env dest fs a d0 h,
          processArtifact_of_not_equiv env dest fs a d0 h, ?_⟩
  intro hl hu
  have h2 : currentDoc dest fs a = candidateDoc a.relPath d0 := by
    rw [currentDoc, hl]
    rfl
  have he : Json.equiv (currentDoc dest fs a) (candidateDoc a.relPath d0) = true := by
    rw [h2]
    exact Json.equiv_refl _ (candidateDoc_wf a.relPath d0)
  rw [processArtifact_of_equiv env dest fs a d0 h he, hu]

/-- Concrete instance of C1: a destination that already holds exactly the
document synthesized for the sample artifact, with the file tracked,
yields no write and changed = false. -/
theorem C1_witness :
    processArtifact trackedEnv "dest"
      [(outPath "dest" sampleArtifact.relPath, candidateDoc sampleArtifact.relPath sampleDefinition)]
      sampleArtifact
      = Except.ok
          ([(outPath "dest" sampleArtifact.relPath,
             candidateDoc sampleArtifact.relPath sampleDefinition)], false) :=
  (C1_write_only_on_diff trackedEnv "dest" _ sampleArtifact sampleDefinition rfl).2.2
    (by simp [lookupJ]) rfl

/-- C2: the equivalence test used by the publisher is order-insensitive on
mapping keys but sensitive to key and value changes: permuting the fields
of a well-formed object preserves equivalence, a key present on one side
only breaks equivalence, a value replaced by a non-equivalent value breaks
equivalence, and an equivalent candidate for a tracked file yields
changed = false with nothing written. -/
theorem C2_key_order_insensitive :
    (∀ xs ys : List (String × Json), (Json.obj xs).wf = true → xs.Perm ys →
        Json.equiv (Json.obj xs) (Json.obj ys) = true)
    ∧ (∀ (xs ys : List (String × Json)) (k : String),
        hasKeyJ k xs ≠ hasKeyJ k ys →
        Json.equiv (Json.obj xs) (Json.obj ys) = false)
    ∧ (∀ (xs ys : List (String × Json)) (k : String) (v w : Json),
        lookupJ k xs = some v → lookupJ k ys = some w → Json.equiv v w = false →
        Json.equiv (Json.obj xs) (Json.obj ys) = false)
    ∧ (∀ (env : GitEnv) (dest : String) (fs : List (String × Json)) (a : Artifact)
        (d0 : DataProductDefinition), a.defn = some d0 →
        Json.equiv (currentDoc dest fs a) (candidateDoc a.relPath d0) = true →
        file_is_untracked env (outPath dest a.relPath) = false →
        processArtifact env dest fs a = Except.ok (fs, false)) := by
  refine ⟨?_, ?_, ?_, ?_⟩
  · intro xs ys hwf hperm
    rw [Json.wf, Bool.and_eq_true] at hwf
    have hnody : nodupKeys (ys.map Prod.fst) = true := by
      rw [nodupKeys_iff]
      exact ((hperm.map Prod.fst).nodup_iff).mp ((nodupKeys_iff _).mp hwf.1)
    simp only [Json.equiv, Bool.and_eq_true]
    constructor
    · rw [fieldsEquiv_iff]
      intro p hp
      refine ⟨p.2, lookupJ_of_nodup hnody ?_, ?_⟩
      · exact (Prod.mk.eta (p := p)) ▸ (hperm.mem_iff.mp hp)
      · exact Json.equiv_refl _ (wfFields_mem hwf.2 hp)
    · rw [List.all_eq_true]
      intro p hp
      rw [hasKeyJ_iff]
      exact ⟨p.2, (Prod.mk.eta (p := p)) ▸ (hperm.mem_iff.mpr hp)⟩
  · intro xs ys k hk
    cases heq : Json.equiv (Json.obj xs) (Json.obj ys) with
    | false => rfl
    | true =>
      exfalso
      apply hk
      simp only [Json.equiv, Bool.and_eq_true] at heq
      obtain ⟨hfe, hall⟩ := heq
      rw [fieldsEquiv_iff] at hfe
      rw [List.all_eq_true] at hall
      cases hx : hasKeyJ k xs with
      | true =>
        obtain ⟨v, hv⟩ := hasKeyJ_iff.mp hx
        obtain ⟨w, hw, _⟩ := hfe (k, v) hv
        exact (hasKeyJ_iff.mpr ⟨w, lookupJ_mem hw⟩).symm
      | false =>
        cases hy : hasKeyJ k ys with
        | false => rfl
        | true =>
          obtain ⟨w, hw⟩ := hasKeyJ_iff.mp hy
          have hxk := hall (k, w) hw
          simp only at hxk
          rw [hx] at hxk
          cases hxk
  · intro xs ys k v w hv hw hvw
    cases heq : Json.equiv (Json.obj xs) (Json.obj ys) with
    | false => rfl
    | true =>
      exfalso
      simp only [Json.equiv, Bool.and_eq_true] at heq
      obtain ⟨hfe, _⟩ := heq
      rw [fieldsEquiv_iff] at hfe
      obtain ⟨w', hw', he'⟩ := hfe (k, v) (lookupJ_mem hv)
      simp only at hw' he'
      rw [hw] at hw'
      cases hw'
      rw [he'] at hvw
      cases hvw
  · intro env dest fs a d0 h he hu
    rw [processArtifact_of_equiv env dest fs a d0 h he, hu]

/-- Concrete instance of C2: two objects differing only in mapping-key order
are judged equivalent. -/
theorem C2_witness :
    Json.equiv (Json.obj [("a", Json.num 1), ("b", Json.num 2)])
      (Json.obj [("b", Json.num 2), ("a", Json.num 1)]) = true :=
  C2_key_order_insensitive.1 [("a", Json.num 1), ("b", Json.num 2)]
    [("b", Json.num 2), ("a", Json.num 1)]
    (by simp [Json.wf, wfFields, nodupKeys])
    (List.Perm.swap ("b", Json.num 2) ("a", Json.num 1) [])

/-- C3: when the candidate document is equivalent to the published one, the
publisher queries the version-control collaborator — an untracked
destination reports changed = true, a tracked one changed = false — and in
either case no write is performed; untracked status itself is the
double-question-mark prefix of the short-status output. -/
theorem C3_untracked_surfacing :
    (∀ (env : GitEnv) (file : String),
        file_is_untracked env file = pyStartsWith (env.gitStatusShort file) "??")
    ∧ (∀ (env : GitEnv) (dest : String) (fs : List (String × Json)) (a : Artifact)
        (d0 : DataProductDefinition), a.defn = some d0 →
        Json.equiv (currentDoc dest fs a) (candidateDoc a.relPath d0) = true →
        processArtifact env dest fs a
          = Except.ok (fs, file_is_untracked env (outPath dest a.relPath))) :=
  ⟨fun _ _ => rfl, processArtifact_of_equiv⟩

/-- Concrete instance of C3: an unchanged document whose file is untracked
reports changed = true even though no write occurs. -/
theorem C3_witness :
    processArtifact untrackedEnv "dest"
      [(outPath "dest" sampleArtifact.relPath, candidateDoc sampleArtifact.relPath sampleDefinition)]
      sampleArtifact
      = Except.ok
          ([(outPath "dest" sampleArtifact.relPath,
             candidateDoc sampleArtifact.relPath sampleDefinition)],
           file_is_untracked untrackedEnv (outPath "dest" sampleArtifact.relPath))
    ∧ file_is_untracked untrackedEnv (outPath "dest" sampleArtifact.relPath) = true := by
  constructor
  · apply C3_untracked_surfacing.2 untrackedEnv "dest" _ sampleArtifact sampleDefinition rfl
    have h2 : currentDoc "dest"
        [(outPath "dest" sampleArtifact.relPath,
          candidateDoc sampleArtifact.relPath sampleDefinition)] sampleArtifact
        = candidateDoc sampleArtifact.relPath sampleDefinition := by
      rw [currentDoc]
      simp [lookupJ]
    rw [h2]
    exact Json.equiv_refl _ (candidateDoc_wf sampleArtifact.relPath sampleDefinition)
  · decide

/-- C4: the pipeline driver's boolean is the OR-fold of the per-definition
change flags, and a definition's change flag is true exactly when its
document was newly written (the published state changed) or its unchanged
file was found untracked. -/
theorem C4_or_fold :
    (∀ (env : GitEnv) (dest : String) (fs : List (String × Json))
        (arts : List Artifact),
        convert_data_product_definitions env dest fs arts
          = ((convertTrace env dest fs arts).1,
             (convertTrace env dest fs arts).2.map (fun flags => flags.any id)))
    ∧ (∀ (env : GitEnv) (dest : String) (fs fs1 : List (String × Json))
        (a : Artifact) (d0 : DataProductDefinition) (c : Bool),
        a.defn = some d0 →
        processArtifact env dest fs a = Except.ok (fs1, c) →
        (c = true ↔
          (fs1 ≠ fs ∨ file_is_untracked env (outPath dest a.relPath) = true))) := by
  constructor
  · intro env dest fs arts
    induction arts generalizing fs with
    | nil => rfl
    | cons a rest ih =>
      rw [convert_data_product_definitions, convertTrace]
      cases hp : processArtifact env dest fs a with
      | error e => rfl
      | ok pr =>
        obtain ⟨fs1, changed⟩ := pr
        simp only
        rw [ih fs1]
        cases ht : (convertTrace env dest fs1 rest).2 with
        | error e => simp [ht, Except.map]
        | ok flags => simp [ht, Except.map, List.any_cons]
  · intro env dest fs fs1 a d0 c h hp
    cases he : Json.equiv (currentDoc dest fs a) (candidateDoc a.relPath d0) with
    | true =>
      rw [processArtifact_of_equiv env dest fs a d0 h he] at hp
      injection hp with hp'
      injection hp' with h1 h2
      subst h1
      subst h2
      simp
    | false =>
      rw [processArtifact_of_not_equiv env dest fs a d0 h he] at hp
      injection hp with hp'
      injection hp' with h1 h2
      subst h1
      subst h2
      simp only [true_iff]
      exact Or.inl (writeFile_changes dest fs a d0 he)

theorem equiv_emptyObj_cons (x : String × Json) (xs : List (String × Json)) :
    Json.equiv (Json.obj []) (Json.obj (x :: xs)) = false := by
  simp [Json.equiv, fieldsEquiv, hasKeyJ]

theorem currentDoc_nil (dest : String) (a : Artifact) :
    currentDoc dest [] a = Json.obj [] := rfl

/-- Concrete instance of C4: on an empty destination the sample artifact's
document is newly written, the per-definition flag is true, and the driver
outcome is the OR-fold of the trace. -/
theorem C4_witness :
    (convert_data_product_definitions trackedEnv "dest" [] [sampleArtifact]
      = ((convertTrace trackedEnv "dest" [] [sampleArtifact]).1,
         (convertTrace trackedEnv "dest" [] [sampleArtifact]).2.map (fun flags => flags.any id)))
    ∧ (true = true ↔
        (writeFile (outPath "dest" sampleArtifact.relPath)
            (candidateDoc sampleArtifact.relPath sampleDefinition) []
            ≠ ([] : List (String × Json))
         ∨ file_is_untracked trackedEnv (outPath "dest" sampleArtifact.relPath) = true)) := by
  have hne : Json.equiv (currentDoc "dest" [] sampleArtifact)
      (candidateDoc sampleArtifact.relPath sampleDefinition) = false := by
    obtain ⟨rest, hrest⟩ :
        ∃ rest, candidateDoc sampleArtifact.relPath sampleDefinition
          = Json.obj (("openapi", Json.str "3.0.2") :: rest) := ⟨_, rfl⟩
    rw [currentDoc_nil, hrest]
    exact equiv_emptyObj_cons _ _
  constructor
  · exact C4_or_fold.1 trackedEnv "dest" [] [sampleArtifact]
  · exact C4_or_fold.2 trackedEnv "dest" [] _ sampleArtifact sampleDefinition true rfl
      (processArtifact_of_not_equiv trackedEnv "dest" [] sampleArtifact sampleDefinition rfl hne)

/-- C9: an artifact that does not expose a non-null DEFINITION entity makes
the run fail with the missing-definition error naming that artifact; the run
halts there, so no document for any later artifact is written, while the
documents written for earlier artifacts remain in place (the resulting
published state is exactly the state after processing the earlier
artifacts). -/
theorem C9_fatal_halts (env : GitEnv) (dest : String) (fs : List (String × Json))
    (before : List Artifact) (bad : Artifact) (after : List Artifact)
    (hok : ∀ a ∈ before, a.defn.isSome = true) (hbad : bad.defn = Option.none) :
    convert_data_product_definitions env dest fs (before ++ bad :: after)
      = ((convert_data_product_definitions env dest fs before).1,
         Except.error (ConvertError.missingDefinition bad.relPath)) := by
  induction before generalizing fs with
  | nil =>
    have h1 : convert_data_product_definitions env dest fs (bad :: after)
        = (fs, Except.error (ConvertError.missingDefinition bad.relPath)) := by
      rw [convert_data_product_definitions, processArtifact_of_missing env dest fs bad hbad]
    rw [List.nil_append, h1]
    rfl
  | cons a rest ih =>
    obtain ⟨d0, hd0⟩ := Option.isSome_iff_exists.mp (hok a (List.mem_cons_self a rest))
    obtain ⟨fs1, c, hp⟩ := processArtifact_isOk env dest fs a d0 hd0
    rw [List.cons_append, convert_data_product_definitions, hp]
    rw [convert_data_product_definitions, hp]
    simp only
    rw [ih fs1 (fun x hx => hok x (List.mem_cons_of_mem a hx))]
    simp [Except.map]

/-- Concrete instance of C9: with one good artifact before and one after, the
run fails with the missing-definition error for the bad artifact and the
final published state is the state after the first artifact alone. -/
theorem C9_witness :
    convert_data_product_definitions trackedEnv "dest" []
        [sampleArtifact, badArtifact, sampleArtifact]
      = ((convert_data_product_definitions trackedEnv "dest" [] [sampleArtifact]).1,
         Except.error (ConvertError.missingDefinition badArtifact.relPath)) :=
  C9_fatal_halts trackedEnv "dest" [] [sampleArtifact] badArtifact [sampleArtifact]
    (by
      intro a ha
      rw [List.mem_singleton] at ha
      subst ha
      rfl)
    rfl

/-- C5: the loader assigns name = the artifact's path relative to the source
root with its extension removed and separators normalized to forward
slashes — the relative path orders/create.ext yields the name orders/create
— and a routeSummary that is unset is then defaulted to that name. -/
theorem C5_name_derivation :
    (∀ (relPath : List String) (d0 : DataProductDefinition),
        (assignNameAndRouteSummary relPath d0).name = some (derivedName relPath))
    ∧ (∀ (relPath : List String) (d0 : DataProductDefinition),
        d0.route_summary = Option.none →
        (assignNameAndRouteSummary relPath d0).route_summary
          = some (derivedName relPath))
    ∧ derivedName ["orders", "create.ext"] = "orders/create" := by
  refine ⟨?_, ?_, by decide⟩
  · intro relPath d0
    rw [assignNameAndRouteSummary]
    split <;> rfl
  · intro relPath d0 h
    simp [assignNameAndRouteSummary, h, pyFalsyOpt]

/-- Concrete instance of C5: the sample artifact's definition, whose
routeSummary is unset, is assigned name and routeSummary orders/create. -/
theorem C5_witness :
    (assignNameAndRouteSummary ["orders", "create.ext"] sampleDefinition).name
      = some (derivedName ["orders", "create.ext"])
    ∧ (assignNameAndRouteSummary ["orders", "create.ext"] sampleDefinition).route_summary
      = some (derivedName ["orders", "create.ext"])
    ∧ derivedName ["orders", "create.ext"] = "orders/create" :=
  ⟨C5_name_derivation.1 ["orders", "create.ext"] sampleDefinition,
   C5_name_derivation.2.1 ["orders", "create.ext"] sampleDefinition (by decide),
   C5_name_derivation.2.2⟩

/-- C6: a Definition constructed with a non-empty summary and with
description and routeDescription unset satisfies description = summary and
routeDescription = summary. -/
theorem C6_default_propagation (name : Option String) (request response : SchemaRef)
    (route_summary : Option String) (summary : String)
    (requires_authorization requires_consent : Bool) (h : summary ≠ "") :
    (DataProductDefinition.init Option.none name request response Option.none
        route_summary summary requires_authorization requires_consent).description
      = some summary
    ∧ (DataProductDefinition.init Option.none name request response Option.none
        route_summary summary requires_authorization requires_consent).route_description
      = some summary := by
  have ht : pyTruthy summary = true := by simp [pyTruthy, h]
  simp [DataProductDefinition.init, ht, pyFalsyOpt]

/-- Concrete instance of C6: construction with only summary set to Foo. -/
theorem C6_witness :
    (DataProductDefinition.init Option.none Option.none sampleRequest sampleResponse
        Option.none Option.none "Foo" false false).description = some "Foo"
    ∧ (DataProductDefinition.init Option.none Option.none sampleRequest sampleResponse
        Option.none Option.none "Foo" false false).route_description = some "Foo" :=
  C6_default_propagation Option.none sampleRequest sampleResponse Option.none "Foo"
    false false (by decide)

/-- C10: with a non-empty summary, a description or routeDescription passed
as the empty string is overwritten with summary just like an unset one,
while non-empty explicit values are preserved unchanged. -/
theorem C10_empty_string_as_unset (name : Option String)
    (request response : SchemaRef) (route_summary : Option String)
    (summary : String) (requires_authorization requires_consent : Bool)
    (descr routeDescr : String) (h : summary ≠ "") :
    ((DataProductDefinition.init (some "") name request response (some "")
        route_summary summary requires_authorization requires_consent).description
      = some summary
     ∧ (DataProductDefinition.init (some "") name request response (some "")
        route_summary summary requires_authorization requires_consent).route_description
      = some summary)
    ∧ (descr ≠ "" → routeDescr ≠ "" →
      (DataProductDefinition.init (some descr) name request response (some routeDescr)
          route_summary summary requires_authorization requires_consent).description
        = some descr
      ∧ (DataProductDefinition.init (some descr) name request response (some routeDescr)
          route_summary summary requires_authorization requires_consent).route_description
        = some routeDescr) := by
  have ht : pyTruthy summary = true := by simp [pyTruthy, h]
  constructor
  · simp [DataProductDefinition.init, ht, pyFalsyOpt]
  · intro hd hr
    have hd' : pyFalsyOpt (some descr) = false := by simp [pyFalsyOpt, hd]
    have hr' : pyFalsyOpt (some routeDescr) = false := by simp [pyFalsyOpt, hr]
    simp [DataProductDefinition.init, ht, hd', hr']

/-- Concrete instance of C10: empty-string description and routeDescription
are replaced by the summary, non-empty ones are preserved. -/
theorem C10_witness :
    ((DataProductDefinition.init (some "") Option.none sampleRequest sampleResponse
        (some "") Option.none "Foo" false false).description = some "Foo"
     ∧ (DataProductDefinition.init (some "") Option.none sampleRequest sampleResponse
        (some "") Option.none "Foo" false false).route_description = some "Foo")
    ∧ ((DataProductDefinition.init (some "Desc") Option.none sampleRequest sampleResponse
        (some "RouteDesc") Option.none "Foo" false false).description = some "Desc"
     ∧ (DataProductDefinition.init (some "Desc") Option.none sampleRequest sampleResponse
        (some "RouteDesc") Option.none "Foo" false false).route_description
      = some "RouteDesc") := by
  have h := C10_empty_string_as_unset Option.none sampleRequest sampleResponse
    Option.none "Foo" false false "Desc" "RouteDesc" (by decide)
  exact ⟨h.1, h.2 (by decide) (by decide)⟩

/-- C7: the synthesized operation declares exactly three header parameters
gated by the Definition's flags — the consent header required with
description Consent token when requiresConsent holds and otherwise optional
with no default and description Optional consent token, the authorization
header required when requiresAuthorization holds and otherwise optional
with no default, and the provider header always optional — and in
particular requiresConsent without requiresAuthorization yields a required
consent header and an optional authorization header with no default. -/
theorem C7_header_gating (d : DataProductDefinition) :
    (export_openapi_spec d).paths = [(routePath d.name, exportedOperation d)]
    ∧ (exportedOperation d).parameters
      = [("x-consent-token",
          { pyType := if d.requires_consent then PyType.str else PyType.optionalStr
            defaultValue :=
              if d.requires_consent then HeaderDefault.ellipsis else HeaderDefault.pyNone
            description :=
              if d.requires_consent then "Consent token" else "Optional consent token" }),
         ("authorization",
          { pyType := if d.requires_authorization then PyType.str else PyType.optionalStr
            defaultValue :=
              if d.requires_authorization then HeaderDefault.ellipsis
              else HeaderDefault.pyNone
            description := "The login token. Value should be \"Bearer [token]\"" }),
         ("x-authorization-provider",
          { pyType := PyType.optionalStr
            defaultValue := HeaderDefault.pyNone
            description := "The bare domain of the system that provided the token." })]
    ∧ (d.requires_consent = true → d.requires_authorization = false →
        ∃ hc ha hp : HeaderParam,
          (exportedOperation d).parameters
            = [("x-consent-token", hc), ("authorization", ha),
               ("x-authorization-provider", hp)]
          ∧ hc.required = true ∧ hc.pyType = PyType.str
          ∧ hc.description = "Consent token"
          ∧ ha.required = false ∧ ha.pyType = PyType.optionalStr
          ∧ ha.defaultValue = HeaderDefault.pyNone
          ∧ hp.required = false ∧ hp.pyType = PyType.optionalStr
          ∧ hp.defaultValue = HeaderDefault.pyNone) := by
  refine ⟨rfl, rfl, ?_⟩
  intro h1 h2
  refine ⟨{ pyType := PyType.str, defaultValue := HeaderDefault.ellipsis,
            description := "Consent token" },
          { pyType := PyType.optionalStr, defaultValue := HeaderDefault.pyNone,
            description := "The login token. Value should be \"Bearer [token]\"" },
          { pyType := PyType.optionalStr, defaultValue := HeaderDefault.pyNone,
            description := "The bare domain of the system that provided the token." },
          ?_, rfl, rfl, rfl, rfl, rfl, rfl, rfl, rfl, rfl⟩
  simp [exportedOperation, fastapiOperation, h1, h2]

/-- Concrete instance of C7: the consent-requiring sample definition yields
a required consent header and an optional authorization header with no
default value. -/
theorem C7_witness :
    ∃ hc ha hp : HeaderParam,
      (exportedOperation consentDefinition).parameters
        = [("x-consent-token", hc), ("authorization", ha),
           ("x-authorization-provider", hp)]
      ∧ hc.required = true ∧ hc.pyType = PyType.str
      ∧ hc.description = "Consent token"
      ∧ ha.required = false ∧ ha.pyType = PyType.optionalStr
      ∧ ha.defaultValue = HeaderDefault.pyNone
      ∧ hp.required = false ∧ hp.pyType = PyType.optionalStr
      ∧ hp.defaultValue = HeaderDefault.pyNone :=
  (C7_header_gating consentDefinition).2.2 (by decide) (by decide)

/-- C8 refutation: stripping the method suffix twice differs from stripping
it once on an operationId that ends in a doubled suffix, so the stripping
is not idempotent on every operationId as the claim states. -/
theorem C8_counterexample :
    ¬ (stripMethodSuffix (stripMethodSuffix "request_x_post_post")
        = stripMethodSuffix "request_x_post_post") := by decide

/-- C8 amended: the post-processing strips the method suffix from every
path entry's operationId, synthesis of the same Definition is
deterministic, and the suffix-stripping is idempotent on every operationId
that does not end in a doubled method suffix. -/
theorem C8_amended_normalization :
    (∀ doc : OpenApiDoc, (stripOperationIds doc).paths
        = doc.paths.map (fun p =>
            (p.1, { p.2 with operationId := stripMethodSuffix p.2.operationId })))
    ∧ (∀ d : DataProductDefinition, export_openapi_spec d = export_openapi_spec d)
    ∧ (∀ s : String, "_post_post".data.isSuffixOf s.data = false →
        stripMethodSuffix (stripMethodSuffix s) = stripMethodSuffix s) := by
  refine ⟨fun doc => rfl, fun d => rfl, ?_⟩
  intro s hs
  have hns : ¬ ("_post".data ++ "_post".data) <:+ s.data := by
    intro hsuf
    have hd : ("_post".data ++ "_post".data) = "_post_post".data := by decide
    rw [hd] at hsuf
    have ht := List.isSuffixOf_iff_suffix.mpr hsuf
    rw [hs] at ht
    cases ht
  show String.mk (removesuffix "_post".data (removesuffix "_post".data s.data))
      = String.mk (removesuffix "_post".data s.data)
  rw [removesuffix_idem "_post".data s.data hns]

/-- Concrete instance of the amended C8: stripping twice equals stripping
once on a realistic operationId with a single method suffix. -/
theorem C8_witness :
    stripMethodSuffix (stripMethodSuffix "request_orders_create_post")
      = stripMethodSuffix "request_orders_create_post" :=
  C8_amended_normalization.2.2 "request_orders_create_post" (by decide)
